import Mathlib

/-!
Verification of the relevance scoring and ranking routine of
`src/agents/searcher.py` (functions `load_resume_text`,
`score_job_against_resume`, `find_matching_jobs_from_resume`).

The embedding is value-level: a job posting (a Python dict produced by
`pandas.DataFrame.to_dict`) is an association list from field names to
values; the in-place mutation `job['match_score'] = score` becomes the
functional update `Posting.set`; Python's `sorted(..., key=..., reverse=True)`
(a stable descending sort) becomes `List.insertionSort` with the descending
comparison; the slice `sorted_jobs[:max_results]` becomes `pySlice`, which
reproduces Python slice semantics for negative stops; file reads that can
raise become `Except String` values supplied by the caller.
-/

namespace Searcher

/-- A field value of a posting record: text, or a number that `str(...)`
renders in decimal (postings loaded from a CSV may carry numeric cells). -/
inductive Value where
  | vStr (s : String)
  | vInt (n : Int)
deriving DecidableEq, Repr

/-- Python `str(v)`: a string is returned unchanged, an integer becomes its
decimal form. -/
def Value.str : Value → String
  | .vStr s => s
  | .vInt n => toString n

/-- A job posting: a record mapping field names to values, embedded as an
association list (a Python dict, in insertion order). -/
abbrev Posting : Type := List (String × Value)

/-- Python `job.get(key, "")`: the value stored at `key`, or the empty
string when the field is missing. -/
def Posting.get (job : Posting) (key : String) : Value :=
  (List.lookup key job).getD (Value.vStr "")

/-- Python `job[key] = v` on a dict: replace the value at an existing key
in place (keeping its position), otherwise append the new binding. -/
def Posting.set (job : Posting) (key : String) (v : Value) : Posting :=
  if (List.lookup key job).isSome then
    job.map (fun kv => if kv.1 = key then (key, v) else kv)
  else
    job ++ [(key, v)]

/-- Split a character list on whitespace runs into the list of maximal
non-whitespace words, `acc` holding the (reversed) word in progress. -/
def splitWords : List Char → List Char → List String
  | [], acc => if acc = [] then [] else [String.mk acc.reverse]
  | c :: cs, acc =>
    if c.isWhitespace then
      if acc = [] then splitWords cs []
      else String.mk acc.reverse :: splitWords cs []
    else splitWords cs (c :: acc)

/-- Python `s.lower().split()`: case-fold each character, split on
whitespace runs, producing the token list with no empty tokens. -/
def pyWords (s : String) : List String :=
  splitWords (s.data.map Char.toLower) []

/-- Python `set(s.lower().split())`: the set of unique case-folded whitespace
tokens of `s`. -/
def wordSet (s : String) : Finset String :=
  (pyWords s).toFinset

/-- The fixed checked-field list of `score_job_against_resume`
(`keys_to_check` in the source). -/
def keys_to_check : List String :=
  ["skills", "Job Title", "Job Description", "location", "Role"]

/-- Python `score_job_against_resume(job, resume_text)`: starting from 0, for each
checked field add the number of tokens shared by the resume's token set and
the token set of `str(job.get(key, ""))`. -/
def score_job_against_resume (job : Posting) (resume_text : String) : Int :=
  let resume_words := wordSet resume_text
  keys_to_check.foldl
    (fun score key =>
      let job_words := wordSet (Value.str (Posting.get job key))
      score + ((resume_words ∩ job_words).card : Int))
    0

/-- Read `x['match_score']` as the integer the ranking stage stored there
(the sort key `lambda x: x['match_score']`). -/
def matchScore (job : Posting) : Int :=
  match List.lookup "match_score" job with
  | some (Value.vInt n) => n
  | _ => 0

/-- The scoring loop of `find_matching_jobs_from_resume` (lines 136-140):
score every posting and write the score into its `match_score` field. -/
def scoreAll (jobs : List Posting) (resume_text : String) : List Posting :=
  jobs.map (fun job =>
    Posting.set job "match_score"
      (Value.vInt (score_job_against_resume job resume_text)))

/-- The order of `sorted(..., key=lambda x: x['match_score'],
reverse=True)`: `a` may precede `b` iff `a`'s score is at least `b`'s. -/
def scoreDesc (a b : Posting) : Prop :=
  matchScore b ≤ matchScore a

instance : DecidableRel scoreDesc :=
  fun a b => inferInstanceAs (Decidable (matchScore b ≤ matchScore a))

instance : IsTotal Posting scoreDesc :=
  ⟨fun a b => le_total (matchScore b) (matchScore a)⟩

instance : IsTrans Posting scoreDesc :=
  ⟨fun _ _ _ h₁ h₂ => le_trans h₂ h₁⟩

/-- Python list slice `l[:k]` for an arbitrary integer `k`: for `k ≥ 0`
take the first `k` elements, for `k < 0` drop the last `|k|`. -/
def pySlice (l : List Posting) (k : Int) : List Posting :=
  if 0 ≤ k then l.take k.toNat else l.take (l.length - (-k).toNat)

/-- The ranking stage of `find_matching_jobs_from_resume` (lines 136-144):
score every posting, sort stably by descending `match_score` (Python's
`sorted` with `reverse=True` is a stable sort; `insertionSort` is the
stable sort for the same total preorder), return the `[:max_results]`
slice. This is the `rank` operation of the spec. -/
def rank (postings : List Posting) (resume_text : String)
    (max_results : Int) : List Posting :=
  let scored_jobs := scoreAll postings resume_text
  let sorted_jobs := scored_jobs.insertionSort scoreDesc
  pySlice sorted_jobs max_results

/-- Python `load_resume_text(resume_path)`: the file read either yields text or
raises; the `except` clause turns any failure into the empty string. -/
def load_resume_text (resume_src : Except String String) : String :=
  match resume_src with
  | .ok text => text
  | .error _ => ""

/-- Python `find_matching_jobs_from_resume(resume_path, csv_path, max_results)`:
load the resume (failures absorbed to `""`), return `[]` on falsy resume
text; then load the postings — `load_jobs_from_csv` calls `pd.read_csv`
with no handler, so a read failure propagates — return `[]` when no
postings were loaded, otherwise rank. -/
def find_matching_jobs_from_resume (resume_src : Except String String)
    (job_src : Except String (List Posting)) (max_results : Int) :
    Except String (List Posting) :=
  let resume_text := load_resume_text resume_src
  if resume_text = "" then .ok []
  else
    match job_src with
    | .error e => .error e
    | .ok jobs =>
      if jobs = [] then .ok []
      else .ok (rank jobs resume_text max_results)

/-! ### Helper lemmas about `Posting.set` and `matchScore` -/

theorem lookup_map_update (job : Posting) (key : String) (v : Value)
    (h : (List.lookup key job).isSome) :
    List.lookup key
      (job.map (fun kv => if kv.1 = key then (key, v) else kv)) = some v := by
  induction job with
  | nil => simp [List.lookup] at h
  | cons kv t ih =>
    obtain ⟨a, b⟩ := kv
    simp only [List.map_cons]
    by_cases hk : a = key
    · rw [if_pos hk]
      simp [List.lookup]
    · rw [if_neg hk]
      have hne : (key == a) = false := beq_eq_false_iff_ne.mpr (Ne.symm hk)
      simp only [List.lookup, hne] at h ⊢
      exact ih h

theorem lookup_append_single (job : Posting) (key : String) (v : Value)
    (h : List.lookup key job = none) :
    List.lookup key (job ++ [(key, v)]) = some v := by
  induction job with
  | nil => simp [List.lookup]
  | cons kv t ih =>
    obtain ⟨a, b⟩ := kv
    by_cases hk : key = a
    · simp [List.lookup, hk] at h
    · have hne : (key == a) = false := beq_eq_false_iff_ne.mpr hk
      simp only [List.lookup, hne] at h
      simp only [List.cons_append, List.lookup, hne]
      exact ih h

/-- After `job['match_score'] = v`, reading the key back yields `v`. -/
theorem lookup_set_self (job : Posting) (key : String) (v : Value) :
    List.lookup key (Posting.set job key v) = some v := by
  unfold Posting.set
  by_cases h : (List.lookup key job).isSome
  · rw [if_pos h]
    exact lookup_map_update job key v h
  · rw [if_neg h]
    exact lookup_append_single job key v (Option.not_isSome_iff_eq_none.mp h)

theorem filter_map_update (job : Posting) (key : String) (v : Value) :
    (job.map (fun kv => if kv.1 = key then (key, v) else kv)).filter
        (fun kv => kv.1 != key) =
      job.filter (fun kv => kv.1 != key) := by
  induction job with
  | nil => rfl
  | cons kv t ih =>
    obtain ⟨a, b⟩ := kv
    by_cases hk : a = key
    · simpa [List.filter_cons, hk] using ih
    · simpa [List.filter_cons, hk, bne_iff_ne] using ih

/-- Writing `key` leaves the record's other fields — order, multiplicity
and values — untouched. -/
theorem filter_set_ne (job : Posting) (key : String) (v : Value) :
    (Posting.set job key v).filter (fun kv => kv.1 != key) =
      job.filter (fun kv => kv.1 != key) := by
  unfold Posting.set
  split
  · exact filter_map_update job key v
  · simp [List.filter_append]

theorem matchScore_set (job : Posting) (n : Int) :
    matchScore (Posting.set job "match_score" (Value.vInt n)) = n := by
  unfold matchScore
  rw [lookup_set_self]

/-! ### Lemmas about the scorer -/

theorem wordSet_empty : wordSet "" = ∅ := rfl

theorem score_foldl_eq (job : Posting) (resume_text : String) :
    score_job_against_resume job resume_text =
      ((wordSet resume_text ∩
          wordSet (Value.str (Posting.get job "skills"))).card : Int)
      + ((wordSet resume_text ∩
          wordSet (Value.str (Posting.get job "Job Title"))).card : Int)
      + ((wordSet resume_text ∩
          wordSet (Value.str (Posting.get job "Job Description"))).card : Int)
      + ((wordSet resume_text ∩
          wordSet (Value.str (Posting.get job "location"))).card : Int)
      + ((wordSet resume_text ∩
          wordSet (Value.str (Posting.get job "Role"))).card : Int) := by
  simp [score_job_against_resume, keys_to_check]

theorem score_nonneg (job : Posting) (resume_text : String) :
    0 ≤ score_job_against_resume job resume_text := by
  rw [score_foldl_eq]
  positivity

theorem score_empty_resume (job : Posting) :
    score_job_against_resume job "" = 0 := by
  rw [score_foldl_eq, wordSet_empty]
  simp

/-! ### Lemmas about slicing and ranking -/

/-- A Python slice `l[:k]` is an order-preserving sublist of `l`. -/
theorem pySlice_sublist (l : List Posting) (k : Int) :
    List.Sublist (pySlice l k) l := by
  unfold pySlice
  split
  · exact List.take_sublist ..
  · exact List.take_sublist ..

/-- Every element of `scoreAll jobs ""` carries `match_score = 0`. -/
theorem matchScore_scoreAll_empty_resume (jobs : List Posting) (q : Posting)
    (hq : q ∈ scoreAll jobs "") : matchScore q = 0 := by
  obtain ⟨job, hj, rfl⟩ := List.mem_map.mp hq
  rw [score_empty_resume job]
  exact matchScore_set job 0

/-! ### Claim theorems -/

/-- C1. `score_job_against_resume(posting, resume_text)` equals the sum,
over the five checked fields `skills`, `Job Title`, `Job Description`,
`location`, `Role`, of the cardinality of the intersection between the
resume's lower-cased whitespace-token set and the token set of the field's
value converted to a string (a missing field read as the empty string),
and this total is a non-negative integer. -/
theorem score_is_sum_of_field_overlaps (job : Posting) (resume_text : String) :
    score_job_against_resume job resume_text =
      ((wordSet resume_text ∩
          wordSet (Value.str (Posting.get job "skills"))).card : Int)
      + ((wordSet resume_text ∩
          wordSet (Value.str (Posting.get job "Job Title"))).card : Int)
      + ((wordSet resume_text ∩
          wordSet (Value.str (Posting.get job "Job Description"))).card : Int)
      + ((wordSet resume_text ∩
          wordSet (Value.str (Posting.get job "location"))).card : Int)
      + ((wordSet resume_text ∩
          wordSet (Value.str (Posting.get job "Role"))).card : Int)
      ∧ 0 ≤ score_job_against_resume job resume_text :=
  ⟨score_foldl_eq job resume_text, score_nonneg job resume_text⟩

/-- C8. Scoring is deterministic and pure: the embedding of
`score_job_against_resume` is a mathematical function (so two invocations
on the same pair are the same value, and no argument is mutated), and its
value depends only on the resume text and the posting's content at the
five checked fields: two postings that agree on every checked field
receive the identical score. -/
theorem score_deterministic_and_content_dependent
    (job₁ job₂ : Posting) (resume_text : String)
    (h : ∀ key ∈ keys_to_check, Posting.get job₁ key = Posting.get job₂ key) :
    score_job_against_resume job₁ resume_text =
      score_job_against_resume job₂ resume_text := by
  have h1 := h "skills" (by simp [keys_to_check])
  have h2 := h "Job Title" (by simp [keys_to_check])
  have h3 := h "Job Description" (by simp [keys_to_check])
  have h4 := h "location" (by simp [keys_to_check])
  have h5 := h "Role" (by simp [keys_to_check])
  rw [score_foldl_eq, score_foldl_eq, h1, h2, h3, h4, h5]

/-- Witness for C8 at a concrete pair of postings that agree on the
checked fields but differ elsewhere. -/
theorem score_deterministic_and_content_dependent_witness :
    score_job_against_resume [("skills", Value.vStr "Python SQL")] "python r" =
      score_job_against_resume
        [("skills", Value.vStr "Python SQL"), ("id", Value.vInt 7)] "python r" :=
  score_deterministic_and_content_dependent
    [("skills", Value.vStr "Python SQL")]
    [("skills", Value.vStr "Python SQL"), ("id", Value.vInt 7)]
    "python r" (by decide)

/-- C2. With empty resume text every posting scores 0, and the ranking
stage still proceeds: it returns the first `max_results` postings of the
input (each annotated with `match_score = 0` by the in-place write) in
their original relative order, and with a non-empty input and positive
`max_results` the result is not empty. -/
theorem rank_on_empty_resume (postings : List Posting) (k : Int)
    (job : Posting) (hp : postings ≠ []) (hk : 0 < k) :
    score_job_against_resume job "" = 0 ∧
    rank postings "" k = (scoreAll postings "").take k.toNat ∧
    rank postings "" k ≠ [] := by
  have hsorted : List.Sorted scoreDesc (scoreAll postings "") := by
    apply List.pairwise_of_forall_mem_list
    intro a ha b hb
    show matchScore b ≤ matchScore a
    rw [matchScore_scoreAll_empty_resume postings a ha,
      matchScore_scoreAll_empty_resume postings b hb]
  have heq : rank postings "" k = (scoreAll postings "").take k.toNat := by
    show pySlice ((scoreAll postings "").insertionSort scoreDesc) k = _
    rw [hsorted.insertionSort_eq]
    unfold pySlice
    rw [if_pos (le_of_lt hk)]
  refine ⟨score_empty_resume job, heq, ?_⟩
  rw [heq]
  intro hnil
  rw [List.take_eq_nil_iff] at hnil
  rcases hnil with h0 | h0
  · omega
  · exact hp (by simpa [scoreAll] using h0)

/-- Witness for C2 at a concrete one-posting input. -/
theorem rank_on_empty_resume_witness :
    score_job_against_resume [("skills", Value.vStr "sql")] "" = 0 ∧
    rank [[("skills", Value.vStr "sql")]] "" 3 =
      (scoreAll [[("skills", Value.vStr "sql")]] "").take (Int.toNat 3) ∧
    rank [[("skills", Value.vStr "sql")]] "" 3 ≠ [] :=
  rank_on_empty_resume [[("skills", Value.vStr "sql")]] 3
    [("skills", Value.vStr "sql")] (by decide) (by decide)

/-- C4. For positive `max_results`, the ranked output draws its elements
from the scored input postings (the input records after the in-place
`match_score` write) without inventing or duplicating any, and its length
is `min(max_results, len(input))`. -/
theorem rank_subperm_and_length (postings : List Posting)
    (resume_text : String) (k : Int) (hk : 0 < k) :
    List.Subperm (rank postings resume_text k)
      (scoreAll postings resume_text) ∧
    (rank postings resume_text k).length = min k.toNat postings.length := by
  constructor
  · have h1 : List.Sublist (rank postings resume_text k)
        ((scoreAll postings resume_text).insertionSort scoreDesc) :=
      pySlice_sublist ..
    exact h1.subperm.trans
      (List.perm_insertionSort scoreDesc (scoreAll postings resume_text)).subperm
  · show (pySlice _ k).length = _
    unfold pySlice
    rw [if_pos (le_of_lt hk), List.length_take, List.length_insertionSort]
    simp [scoreAll]

/-- Witness for C4 at a concrete two-posting input with `max_results = 1`. -/
theorem rank_subperm_and_length_witness :
    List.Subperm (rank [[("Role", Value.vStr "dev")], []] "dev" 1)
      (scoreAll [[("Role", Value.vStr "dev")], []] "dev") ∧
    (rank [[("Role", Value.vStr "dev")], []] "dev" 1).length =
      min (Int.toNat 1) (List.length [[("Role", Value.vStr "dev")], []]) :=
  rank_subperm_and_length [[("Role", Value.vStr "dev")], []] "dev" 1 (by decide)

/-- C5. Stability: for every score value `s`, the postings of the ranked
output whose `match_score` is `s` form an order-preserving sublist of the
scored input's postings with `match_score = s` — so two postings with
equal scores keep their relative input order. -/
theorem rank_ties_keep_input_order (postings : List Posting)
    (resume_text : String) (k : Int) (s : Int) :
    List.Sublist
      ((rank postings resume_text k).filter (fun job => matchScore job == s))
      ((scoreAll postings resume_text).filter
        (fun job => matchScore job == s)) := by
  have hout : List.Sublist (rank postings resume_text k)
      ((scoreAll postings resume_text).insertionSort scoreDesc) :=
    pySlice_sublist ..
  have h1 := hout.filter (fun job => matchScore job == s)
  have hA : ((scoreAll postings resume_text).filter
      (fun job => matchScore job == s)).Pairwise scoreDesc := by
    apply List.pairwise_of_forall_mem_list
    intro a ha b hb
    have ha' : matchScore a = s := by
      simpa using List.of_mem_filter ha
    have hb' : matchScore b = s := by
      simpa using List.of_mem_filter hb
    show matchScore b ≤ matchScore a
    rw [ha', hb']
  have h2 : List.Sublist
      ((scoreAll postings resume_text).filter
        (fun job => matchScore job == s))
      ((scoreAll postings resume_text).insertionSort scoreDesc) :=
    List.sublist_insertionSort hA (List.filter_sublist _)
  have hself := List.filter_eq_self.mpr
    (fun a ha => List.of_mem_filter
      (l := scoreAll postings resume_text)
      (p := fun job => matchScore job == s) ha)
  have h3 := h2.filter (fun job => matchScore job == s)
  rw [hself] at h3
  have hperm := (List.perm_insertionSort scoreDesc
    (scoreAll postings resume_text)).filter (fun job => matchScore job == s)
  have heq := h3.eq_of_length hperm.length_eq.symm
  rw [← heq] at h1
  exact h1

/-- C6. The ranked output is sorted by `match_score` in non-increasing
order: every adjacent pair `(a, b)` satisfies
`a.match_score >= b.match_score`. -/
theorem rank_sorted_descending (postings : List Posting)
    (resume_text : String) (k : Int) :
    List.Chain' (fun a b => matchScore b ≤ matchScore a)
      (rank postings resume_text k) := by
  have hs : List.Sorted scoreDesc
      ((scoreAll postings resume_text).insertionSort scoreDesc) :=
    List.sorted_insertionSort scoreDesc (scoreAll postings resume_text)
  have hout := pySlice_sublist
    ((scoreAll postings resume_text).insertionSort scoreDesc) k
  exact (hs.sublist hout).chain'

/-- C3 counterexample. A postings-load failure is NOT absorbed: with a
readable, non-empty resume and a failing CSV load,
`find_matching_jobs_from_resume` propagates the failure to its caller
instead of returning an empty result. -/
theorem find_propagates_postings_failure :
    find_matching_jobs_from_resume (Except.ok "python")
        (Except.error "read failure") 10 = Except.error "read failure" ∧
    find_matching_jobs_from_resume (Except.ok "python")
        (Except.error "read failure") 10 ≠ Except.ok [] := by
  refine ⟨rfl, fun h => ?_⟩
  rw [show find_matching_jobs_from_resume (Except.ok "python")
      (Except.error "read failure") 10 = Except.error "read failure" from rfl]
    at h
  exact Except.noConfusion h

/-- C3 amended. `find_matching_jobs_from_resume` absorbs a resume-load
failure and an empty resume (empty result, no fault), and returns an empty
result when the postings load yields no postings; but a postings-load
failure (an exception from the CSV reader) propagates to the caller. -/
theorem find_failure_handling (e err : String) (resume_text : String)
    (job_src : Except String (List Posting)) (k : Int)
    (ht : resume_text ≠ "") :
    find_matching_jobs_from_resume (Except.error e) job_src k =
      Except.ok [] ∧
    find_matching_jobs_from_resume (Except.ok "") job_src k =
      Except.ok [] ∧
    find_matching_jobs_from_resume (Except.ok resume_text)
      (Except.ok []) k = Except.ok [] ∧
    find_matching_jobs_from_resume (Except.ok resume_text)
      (Except.error err) k = Except.error err := by
  refine ⟨rfl, rfl, ?_, ?_⟩
  · show (if resume_text = "" then _ else _) = _
    rw [if_neg ht]
    rfl
  · show (if resume_text = "" then _ else _) = _
    rw [if_neg ht]

/-- Witness for the amended C3 at concrete inputs. -/
theorem find_failure_handling_witness :
    find_matching_jobs_from_resume (Except.error "io") (Except.ok []) 10 =
      Except.ok [] ∧
    find_matching_jobs_from_resume (Except.ok "") (Except.ok []) 10 =
      Except.ok [] ∧
    find_matching_jobs_from_resume (Except.ok "python") (Except.ok []) 10 =
      Except.ok [] ∧
    find_matching_jobs_from_resume (Except.ok "python")
      (Except.error "boom") 10 = Except.error "boom" :=
  find_failure_handling "io" "boom" "python" (Except.ok []) 10 (by decide)

/-- C7. Ranking an empty postings collection returns the empty sequence
(and, at the pipeline level, an empty postings load yields an empty
result), raising no error. -/
theorem rank_empty_postings (resume_text : String) (k : Int)
    (resume_src : Except String String) (hk : 0 < k) :
    rank [] resume_text k = [] ∧
    find_matching_jobs_from_resume resume_src (Except.ok []) k =
      Except.ok [] := by
  constructor
  · show pySlice (([] : List Posting).insertionSort scoreDesc) k = []
    unfold pySlice
    split <;> simp [List.insertionSort]
  · match resume_src with
    | .error e => rfl
    | .ok text =>
      show (if text = "" then _ else _) = _
      by_cases ht : text = ""
      · rw [if_pos ht]
      · rw [if_neg ht]
        rfl

/-- Witness for C7 at concrete inputs. -/
theorem rank_empty_postings_witness :
    rank [] "python sql" 10 = [] ∧
    find_matching_jobs_from_resume (Except.ok "python sql")
      (Except.ok []) 10 = Except.ok [] :=
  rank_empty_postings "python sql" 10 (Except.ok "python sql") (by decide)

/-- C9. Frame property of the scoring loop: it processes every input
posting (the scored list is element-wise in correspondence with the
input), each output record holds `match_score` equal to the posting's
score, and erasing `match_score` from an output record gives back exactly
the input record — no other field is written. -/
theorem scoreAll_writes_only_match_score (postings : List Posting)
    (resume_text : String) :
    List.Forall₂
      (fun job q =>
        List.lookup "match_score" q =
          some (Value.vInt (score_job_against_resume job resume_text)) ∧
        q.filter (fun kv => kv.1 != "match_score") =
          job.filter (fun kv => kv.1 != "match_score"))
      postings (scoreAll postings resume_text) := by
  induction postings with
  | nil => exact List.Forall₂.nil
  | cons job t ih =>
    exact List.Forall₂.cons
      ⟨lookup_set_self job "match_score" _, filter_set_ne job "match_score" _⟩
      ih

/-- C10. Non-positive `max_results` raises no usage fault: with
`max_results = 0` the ranking returns the empty list, and with negative
`max_results = -m` it returns the full descending-sorted scored list with
its last `m` elements removed (Python slice semantics). -/
theorem rank_nonpositive_max_results (postings : List Posting)
    (resume_text : String) (m : Nat) (hp : postings ≠ [])
    (ht : resume_text ≠ "") (hm : 0 < m) :
    rank postings resume_text 0 = [] ∧
    rank postings resume_text (-(m : Int)) =
      ((scoreAll postings resume_text).insertionSort scoreDesc).take
        (postings.length - m) := by
  constructor
  · show pySlice _ 0 = []
    unfold pySlice
    simp
  · show pySlice ((scoreAll postings resume_text).insertionSort scoreDesc)
      (-(m : Int)) = _
    unfold pySlice
    rw [if_neg (by omega)]
    congr 1
    rw [List.length_insertionSort]
    simp [scoreAll]

/-- Witness for C10 at a concrete input with `max_results` 0 and -1. -/
theorem rank_nonpositive_max_results_witness :
    rank [[("Role", Value.vStr "dev")]] "dev" 0 = [] ∧
    rank [[("Role", Value.vStr "dev")]] "dev" (-(1 : Nat) : Int) =
      ((scoreAll [[("Role", Value.vStr "dev")]] "dev").insertionSort
        scoreDesc).take (List.length [[("Role", Value.vStr "dev")]] - 1) :=
  rank_nonpositive_max_results [[("Role", Value.vStr "dev")]] "dev" 1
    (by decide) (by decide) (by decide)

end Searcher
